import Mathlib

/-!
Shallow embedding of the rsx-resources resource-management crates
(base64-util, rsx-files, rsx-images, rsx-fonts, rsx-resource-updates)
and proofs about the cache and shaping behaviour described in the spec.

Modelling conventions:
- machine integers (u64 hash values, key counters) are `Nat`, reduced
  `% 2 ^ 64` where the source relies on wrapping (the FNV hasher);
- the font-engine metric values (`FT_Pos`, i32 `_64` fields) are `Int`;
- byte strings (`&[u8]`, `&str` contents) are `List Nat` of byte values;
- `FnvHashMap` dictionaries are association lists with first-match lookup,
  inserted only through the vacant-entry path exactly as in the source;
- fallible Rust code returning `Result` is `Except`; a Rust panic
  (out-of-range slice) is `Option.none` at the outermost level;
- the external collaborators (file system, image codec, FreeType engine)
  are explicit function parameters, as the spec declares them out of scope.
-/

/-- Association-list lookup mirroring `FnvHashMap::get` / `entry` probing. -/
def lookupM {K V : Type} [DecidableEq K] : List (K × V) → K → Option V
  | [], _ => none
  | (k', v) :: rest, k => if k' = k then some v else lookupM rest k

/-- Association-list insert used only on the vacant-entry path. -/
def insertM {K V : Type} (m : List (K × V)) (k : K) (v : V) : List (K × V) :=
  (k, v) :: m

theorem lookupM_insert_self {K V : Type} [DecidableEq K] (m : List (K × V)) (k : K) (v : V) :
    lookupM (insertM m k v) k = some v := by
  simp [lookupM, insertM]

theorem lookupM_insert_ne {K V : Type} [DecidableEq K] (m : List (K × V)) {k q : K} (v : V)
    (h : k ≠ q) : lookupM (insertM m k v) q = lookupM m q := by
  simp [lookupM, insertM, h]

/-- 64-bit FNV-1a over a byte sequence, as produced by `FnvHasher::default()`
followed by `write(bytes)`; wrapping multiplication is modelled by `% 2 ^ 64`. -/
def fnv64 (bytes : List Nat) : Nat :=
  bytes.foldl (fun h b => ((h ^^^ b) * 1099511628211) % 18446744073709551616)
    14695981039346656037

/-! ## base64 (external `base64` crate, standard alphabet with padding) -/

/-- Decode-side error of the external base64 crate, without byte positions. -/
inductive B64Error
  | invalidByte
  | invalidLength
deriving DecidableEq, Repr

/-- Standard-alphabet character for a 6-bit value. -/
def b64char (n : Nat) : Nat :=
  if n < 26 then 65 + n
  else if n < 52 then 97 + (n - 26)
  else if n < 62 then 48 + (n - 52)
  else if n = 62 then 43
  else 47

/-- Inverse table of the standard alphabet; `none` on bytes outside it. -/
def b64val (c : Nat) : Option Nat :=
  if 65 ≤ c ∧ c ≤ 90 then some (c - 65)
  else if 97 ≤ c ∧ c ≤ 122 then some (c - 97 + 26)
  else if 48 ≤ c ∧ c ≤ 57 then some (c - 48 + 52)
  else if c = 43 then some 62
  else if c = 47 then some 63
  else none

/-- The `base64::encode` of the external crate: 3-byte groups to 4 characters,
with `=` (byte 61) padding on a final 1- or 2-byte group. -/
def base64encode : List Nat → List Nat
  | [] => []
  | [x] => [b64char (x / 4), b64char (x % 4 * 16), 61, 61]
  | [x, y] => [b64char (x / 4), b64char (x % 4 * 16 + y / 16), b64char (y % 16 * 4), 61]
  | x :: y :: z :: rest =>
    b64char (x / 4) :: b64char (x % 4 * 16 + y / 16) :: b64char (y % 16 * 4 + z / 64)
      :: b64char (z % 64) :: base64encode rest

/-- Decode a final 2-character group to one byte. -/
def b64decode2 (a b : Nat) : Except B64Error (List Nat) :=
  match b64val a, b64val b with
  | some va, some vb => .ok [va * 4 + vb / 16]
  | _, _ => .error .invalidByte

/-- Decode a final 3-character group to two bytes. -/
def b64decode3 (a b c : Nat) : Except B64Error (List Nat) :=
  match b64val a, b64val b, b64val c with
  | some va, some vb, some vc => .ok [va * 4 + vb / 16, vb % 16 * 16 + vc / 4]
  | _, _, _ => .error .invalidByte

/-- The `base64::decode` of the external crate: full 4-character groups,
with `=` padding accepted only at the end of the input. -/
def base64decode : List Nat → Except B64Error (List Nat)
  | [] => .ok []
  | [_] => .error .invalidLength
  | [a, b] => b64decode2 a b
  | [a, b, c] => b64decode3 a b c
  | a :: b :: c :: d :: rest =>
    if rest = [] ∧ d = 61 then
      if c = 61 then b64decode2 a b else b64decode3 a b c
    else
      match base64decode rest, b64val a, b64val b, b64val c, b64val d with
      | .ok bs, some va, some vb, some vc, some vd =>
        .ok ([va * 4 + vb / 16, vb % 16 * 16 + vc / 4, vc % 4 * 64 + vd] ++ bs)
      | .error e, _, _, _, _ => .error e
      | _, _, _, _, _ => .error .invalidByte

theorem b64val_b64char' : ∀ n < 64, b64val (b64char n) = some n := by
  decide

theorem b64val_b64char {n : Nat} (h : n < 64) : b64val (b64char n) = some n :=
  b64val_b64char' n h

theorem b64char_ne_61 (n : Nat) : b64char n ≠ 61 := by
  unfold b64char
  split <;> [omega; split <;> [omega; split <;> [omega; split <;> omega]]]

/-- Round trip of the external base64 crate on its own encoder output. -/
theorem base64_roundtrip : ∀ bs : List Nat, (∀ x ∈ bs, x < 256) →
    base64decode (base64encode bs) = .ok bs
  | [], _ => rfl
  | [x], h => by
    have hx : x < 256 := h x (by simp)
    have h1 : x / 4 < 64 := by omega
    have h2 : x % 4 * 16 < 64 := by omega
    simp [base64encode, base64decode, b64decode2, b64char_ne_61,
      b64val_b64char h1, b64val_b64char h2]
    all_goals omega
  | [x, y], h => by
    have hx : x < 256 := h x (by simp)
    have hy : y < 256 := h y (by simp)
    have h1 : x / 4 < 64 := by omega
    have h2 : x % 4 * 16 + y / 16 < 64 := by omega
    have h3 : y % 16 * 4 < 64 := by omega
    simp [base64encode, base64decode, b64decode2, b64decode3, b64char_ne_61,
      b64val_b64char h1, b64val_b64char h2, b64val_b64char h3]
    all_goals omega
  | x :: y :: z :: rest, h => by
    have hx : x < 256 := h x (by simp)
    have hy : y < 256 := h y (by simp)
    have hz : z < 256 := h z (by simp)
    have ih := base64_roundtrip rest (fun a ha => h a (by simp [ha]))
    have h1 : x / 4 < 64 := by omega
    have h2 : x % 4 * 16 + y / 16 < 64 := by omega
    have h3 : y % 16 * 4 + z / 64 < 64 := by omega
    have h4 : z % 64 < 64 := by omega
    simp [base64encode, base64decode, b64char_ne_61, ih,
      b64val_b64char h1, b64val_b64char h2, b64val_b64char h3, b64val_b64char h4]
    all_goals omega

/-! ## base64-util (`src/base64-util/src/lib.rs`) -/

deriving instance DecidableEq for Except

/-- Byte string of the literal marker `base64,` searched by `from_data_uri`. -/
def b64marker : List Nat := [98, 97, 115, 101, 54, 52, 44]

/-- The pattern `pat` occurs in `l` starting at byte index `i`. -/
def subAt (pat l : List Nat) (i : Nat) : Prop :=
  (l.drop i).take pat.length = pat

instance (pat l : List Nat) (i : Nat) : Decidable (subAt pat l i) := by
  unfold subAt
  infer_instance

/-- Model of Rust `str::find(pattern)`: byte index of the first occurrence. -/
def findSub (pat : List Nat) : List Nat → Option Nat
  | [] => if pat = [] then some 0 else none
  | x :: xs =>
    if (x :: xs).take pat.length = pat then some 0
    else (findSub pat xs).map (· + 1)

theorem subAt_of_findSub {pat : List Nat} :
    ∀ {l : List Nat} {n : Nat}, findSub pat l = some n → subAt pat l n
  | [], n, h => by
    by_cases hp : pat = []
    · simp [findSub, hp] at h
      simp [subAt, hp, ← h]
    · simp [findSub, hp] at h
  | x :: xs, n, h => by
    by_cases h0 : (x :: xs).take pat.length = pat
    · simp [findSub, h0] at h
      simpa [subAt, ← h] using h0
    · simp [findSub, h0] at h
      obtain ⟨m, hm, rfl⟩ := h
      have := subAt_of_findSub hm
      simpa [subAt] using this

theorem findSub_eq_some {pat : List Nat} :
    ∀ {l : List Nat} {n : Nat}, subAt pat l n → (∀ i, i < n → ¬ subAt pat l i) →
      findSub pat l = some n
  | [], n, hs, hmin => by
    rcases Nat.eq_zero_or_pos n with rfl | hpos
    · have hp : pat = [] := by simpa [subAt] using hs
      simp [findSub, hp]
    · exfalso
      refine hmin 0 hpos ?_
      simp only [subAt, List.drop] at hs ⊢
      simpa [List.drop_nil] using hs
  | x :: xs, n, hs, hmin => by
    match n with
    | 0 =>
      have h0 : (x :: xs).take pat.length = pat := by simpa [subAt] using hs
      simp [findSub, h0]
    | Nat.succ m =>
      have h0 : ¬ (x :: xs).take pat.length = pat := by
        have := hmin 0 (Nat.succ_pos m)
        simpa [subAt] using this
      have htail : subAt pat xs m := by simpa [subAt] using hs
      have htailmin : ∀ i, i < m → ¬ subAt pat xs i := by
        intro i hi hsub
        exact hmin (i + 1) (by omega) (by simpa [subAt] using hsub)
      simp [findSub, h0, findSub_eq_some htail htailmin]

theorem subAt_getElem {pat l : List Nat} {i : Nat} (h : subAt pat l i) {k : Nat}
    (hk : k < pat.length) : l[i + k]? = pat[k]? := by
  have h1 : pat[k]? = ((l.drop i).take pat.length)[k]? := by rw [h]
  rw [h1, List.getElem?_take_of_lt hk, List.getElem?_drop]

theorem findSub_length_le {pat : List Nat} {l : List Nat} {n : Nat}
    (h : findSub pat l = some n) (hp : pat ≠ []) : n + pat.length ≤ l.length := by
  have hs := subAt_of_findSub h
  have := congrArg List.length hs
  simp only [subAt, List.length_take, List.length_drop] at this
  have hlen : 0 < pat.length := List.length_pos.mpr hp
  omega

/-- Byte string `data:image/`. -/
def imageUriHead : List Nat := [100, 97, 116, 97, 58, 105, 109, 97, 103, 101, 47]

/-- Byte string `data:application/x-font-woff;`. -/
def fontUriHead : List Nat :=
  [100, 97, 116, 97, 58, 97, 112, 112, 108, 105, 99, 97, 116, 105, 111, 110, 47, 120,
    45, 102, 111, 110, 116, 45, 119, 111, 102, 102, 59]

/-- Source `to_image_data_uri`: `data:image/{format};base64,{encoded}`. -/
def to_image_data_uri (format bytes : List Nat) : List Nat :=
  imageUriHead ++ format ++ [59] ++ b64marker ++ base64encode bytes

/-- Source `to_font_data_uri`: `data:application/x-font-woff;base64,{encoded}`. -/
def to_font_data_uri (bytes : List Nat) : List Nat :=
  fontUriHead ++ b64marker ++ base64encode bytes

/-- Source `from_data_uri`: finds the marker, computes
`start = find.unwrap_or(0) + 7`, slices the byte string at `start` and
base64-decodes the suffix. The slice `&bytes[start..]` panics when
`start > len`; the panic is modelled as `none`. -/
def from_data_uri (data_uri : List Nat) : Option (Except B64Error (List Nat)) :=
  let start := (findSub b64marker data_uri).getD 0 + 7
  if start ≤ data_uri.length then some (base64decode (data_uri.drop start)) else none

/-- Modelled from the spec's words for comparison (claim C4): the payload
starts right after the marker, or at offset 0 of the whole input when the
marker is absent. -/
def from_data_uri_spec (data_uri : List Nat) : Except B64Error (List Nat) :=
  match findSub b64marker data_uri with
  | some i => base64decode (data_uri.drop (i + 7))
  | none => base64decode data_uri

theorem findSub_marker_concat (Q rest : List Nat)
    (hQ : ∀ i, i < Q.length → ¬ subAt b64marker (Q ++ (b64marker ++ rest)) i) :
    findSub b64marker (Q ++ (b64marker ++ rest)) = some Q.length := by
  apply findSub_eq_some _ hQ
  show ((Q ++ (b64marker ++ rest)).drop Q.length).take b64marker.length = b64marker
  rw [List.drop_left, List.take_append_of_le_length (Nat.le_refl _), List.take_length]

theorem from_data_uri_concat (Q rest : List Nat)
    (hQ : ∀ i, i < Q.length → ¬ subAt b64marker (Q ++ (b64marker ++ rest)) i) :
    from_data_uri (Q ++ (b64marker ++ rest)) = some (base64decode rest) := by
  have hf := findSub_marker_concat Q rest hQ
  unfold from_data_uri
  rw [hf]
  simp only [Option.getD_some]
  have hlen : Q.length + 7 ≤ (Q ++ (b64marker ++ rest)).length := by
    simp [b64marker]
  rw [if_pos hlen]
  congr 1
  have hsplit : Q ++ (b64marker ++ rest) = (Q ++ b64marker) ++ rest := by
    simp [List.append_assoc]
  have hl : Q.length + 7 = (Q ++ b64marker).length := by simp [b64marker]
  rw [hsplit, hl, List.drop_left]

theorem fontUriHead_no_marker (T : List Nat) :
    ∀ i, i < fontUriHead.length → ¬ subAt b64marker (fontUriHead ++ T) i := by
  intro i hi hsub
  have h98 := subAt_getElem hsub (k := 0) (by simp [b64marker])
  rw [Nat.add_zero, List.getElem?_append_left hi] at h98
  have hmem : (98 : Nat) ∈ fontUriHead := List.getElem?_mem (by simpa [b64marker] using h98)
  revert hmem
  decide

theorem imageUriHead_no_marker (f T : List Nat) (hf : ∀ j, ¬ subAt b64marker f j) :
    ∀ i, i < 12 + f.length →
      ¬ subAt b64marker (imageUriHead ++ (f ++ (59 :: T))) i := by
  intro i hi hsub
  have h98 := subAt_getElem hsub (k := 0) (by simp [b64marker])
  rw [Nat.add_zero] at h98
  have hlenH : imageUriHead.length = 11 := by simp [imageUriHead]
  have h59 : (imageUriHead ++ (f ++ (59 :: T)))[11 + f.length]? = some 59 := by
    rw [List.getElem?_append_right (by omega)]
    rw [hlenH, Nat.add_comm 11 f.length, Nat.add_sub_cancel]
    rw [List.getElem?_append_right (Nat.le_refl _), Nat.sub_self]
    simp
  rcases Nat.lt_or_ge i 11 with hcase | hge
  · rw [List.getElem?_append_left (by omega)] at h98
    have hmem : (98 : Nat) ∈ imageUriHead := List.getElem?_mem (by simpa [b64marker] using h98)
    revert hmem
    decide
  rcases Nat.lt_or_ge i (11 + f.length) with hmid | hend
  · have hj : i - 11 < f.length := by omega
    rcases Nat.lt_or_ge (f.length - (i - 11)) 7 with hshort | hfit
    · have hk7 : f.length - (i - 11) < b64marker.length := by simp [b64marker]; omega
      have hq := subAt_getElem hsub hk7
      have hidx : i + (f.length - (i - 11)) = 11 + f.length := by omega
      rw [hidx, h59] at hq
      have hmem : (59 : Nat) ∈ b64marker := List.getElem?_mem hq.symm
      revert hmem
      decide
    · refine hf (i - 11) ?_
      have hi' : i = imageUriHead.length + (i - 11) := by omega
      have hd1 : (imageUriHead ++ (f ++ (59 :: T))).drop (imageUriHead.length + (i - 11))
          = (f ++ (59 :: T)).drop (i - 11) := List.drop_append _
      have hd2 : (f ++ (59 :: T)).drop (i - 11) = f.drop (i - 11) ++ (59 :: T) :=
        List.drop_append_of_le_length (by omega)
      have htake : (f.drop (i - 11) ++ (59 :: T)).take b64marker.length
          = (f.drop (i - 11)).take b64marker.length :=
        List.take_append_of_le_length (by simp [b64marker]; omega)
      show (f.drop (i - 11)).take b64marker.length = b64marker
      rw [← htake, ← hd2, ← hd1, ← hi']
      exact hsub
  · have hieq : i = 11 + f.length := by omega
    rw [hieq, h59] at h98
    simp [b64marker] at h98

theorem not_subAt_of_all_lt {pat l : List Nat} (hp : pat ≠ [])
    (h : ∀ j, j < l.length → ¬ subAt pat l j) : ∀ j, ¬ subAt pat l j := by
  intro j hsub
  rcases Nat.lt_or_ge j l.length with hj | hj
  · exact h j hj hsub
  · rw [subAt, List.drop_eq_nil_of_le hj, List.take_nil] at hsub
    exact hp hsub.symm

/-- C4, as stated by the spec, is false: on the 8-byte marker-free input
`AAAAAAAA`, decoding the whole input from offset 0 would give six zero
bytes, but `from_data_uri` skips the first 7 bytes and decodes the single
character `A`, an invalid-length error. -/
theorem C4_counterexample :
    findSub b64marker (List.replicate 8 65) = none ∧
    base64decode (List.replicate 8 65) = .ok [0, 0, 0, 0, 0, 0] ∧
    from_data_uri (List.replicate 8 65) = some (.error .invalidLength) := by
  decide

/-- C4 (amended): when the marker `base64,` is absent and the input is at
least 7 bytes long, `from_data_uri` decodes the payload starting at byte
offset 7 (the first 7 bytes are skipped), not offset 0; when the marker is
present at first index `i`, everything after it (offset `i + 7`) is the
payload. -/
theorem C4_payload_offset (uri : List Nat) :
    (findSub b64marker uri = none → 7 ≤ uri.length →
      from_data_uri uri = some (base64decode (uri.drop 7))) ∧
    (∀ i, findSub b64marker uri = some i →
      from_data_uri uri = some (base64decode (uri.drop (i + 7)))) := by
  constructor
  · intro hnone hlen
    simp only [from_data_uri, hnone, Option.getD_none, Nat.zero_add]
    rw [if_pos hlen]
  · intro i hsome
    have hb := findSub_length_le hsome (by simp [b64marker])
    simp only [b64marker, List.length_cons, List.length_nil] at hb
    simp only [from_data_uri, hsome, Option.getD_some]
    rw [if_pos (by omega)]

/-- Witness for the amended C4 at concrete inputs: a marker-free 8-byte
input is decoded from offset 7; an input starting with the marker is
decoded right after it. -/
theorem C4_payload_offset_witness :
    from_data_uri (List.replicate 8 65) = some (base64decode ((List.replicate 8 65).drop 7)) ∧
    from_data_uri (b64marker ++ [65, 65, 65, 65])
      = some (base64decode ((b64marker ++ [65, 65, 65, 65]).drop (0 + 7))) :=
  ⟨(C4_payload_offset (List.replicate 8 65)).1 (by decide) (by decide),
   (C4_payload_offset (b64marker ++ [65, 65, 65, 65])).2 0 (by decide)⟩

/-- C5: the no-panic claim fails in the code. On a marker-free input
shorter than 7 bytes (such as the empty string or `abc`),
`from_data_uri` computes `start = 0 + 7` and slices
`&data_uri.as_bytes()[7..]` on a shorter byte string, which panics
(modelled as `none`) instead of returning a `Result`. -/
theorem C5_short_input_panics :
    from_data_uri [] = none ∧ from_data_uri [97, 98, 99] = none := by
  decide

/-- C6, as stated by the spec, is false: for the format name `base64,`
the first marker occurrence lies inside the format segment, so decoding
starts inside the URI prefix and fails instead of returning the encoded
byte buffer. -/
theorem C6_counterexample :
    from_data_uri (to_image_data_uri b64marker [65]) = some (.error .invalidByte) ∧
    from_data_uri (to_image_data_uri b64marker [65]) ≠ some (.ok [65]) := by
  decide

/-- C6 (amended): for every byte buffer `b` and every image format name
`f` that does not contain the substring `base64,` (true of all real
format names), decoding the data URI produced by `to_image_data_uri`
returns exactly `b`; likewise for `to_font_data_uri`. -/
theorem C6_roundtrip (f b : List Nat) (hb : ∀ x ∈ b, x < 256)
    (hf : ∀ j, ¬ subAt b64marker f j) :
    from_data_uri (to_image_data_uri f b) = some (.ok b) ∧
    from_data_uri (to_font_data_uri b) = some (.ok b) := by
  constructor
  · have hshape : to_image_data_uri f b
        = (imageUriHead ++ f ++ [59]) ++ (b64marker ++ base64encode b) := by
      simp [to_image_data_uri, List.append_assoc]
    have hQ : ∀ i, i < (imageUriHead ++ f ++ [59]).length →
        ¬ subAt b64marker ((imageUriHead ++ f ++ [59]) ++ (b64marker ++ base64encode b)) i := by
      intro i hi
      have hshape2 : (imageUriHead ++ f ++ [59]) ++ (b64marker ++ base64encode b)
          = imageUriHead ++ (f ++ (59 :: (b64marker ++ base64encode b))) := by
        simp [List.append_assoc]
      rw [hshape2]
      apply imageUriHead_no_marker f _ hf
      simp only [List.length_append, List.length_cons, List.length_nil] at hi
      have : imageUriHead.length = 11 := by simp [imageUriHead]
      omega
    rw [hshape, from_data_uri_concat _ _ hQ, base64_roundtrip b hb]
  · have hshape : to_font_data_uri b = fontUriHead ++ (b64marker ++ base64encode b) := by
      simp [to_font_data_uri, List.append_assoc]
    rw [hshape, from_data_uri_concat _ _ (fontUriHead_no_marker _), base64_roundtrip b hb]

/-- Witness for the amended C6 with the format name `png` and the byte
buffer `[137, 80, 78, 13]`. -/
theorem C6_roundtrip_witness :
    from_data_uri (to_image_data_uri [112, 110, 103] [137, 80, 78, 13])
      = some (.ok [137, 80, 78, 13]) ∧
    from_data_uri (to_font_data_uri [137, 80, 78, 13]) = some (.ok [137, 80, 78, 13]) :=
  C6_roundtrip [112, 110, 103] [137, 80, 78, 13] (by decide)
    (not_subAt_of_all_lt (by decide) (by decide))

/-! ## rsx-files (`src/rsx-files/src/types.rs`) -/

/-- Error kind of the file cache. The variants `FileAlreadyAdded` and
`FileNotFound` are used by `types.rs`; IO failures propagated from the
file system via `?` are collapsed into one variant, following the spec's
taxonomy (rsx-files/src/error.rs is not part of the provided sources). -/
inductive FileError
  | fileAlreadyAdded
  | fileNotFound
  | ioError
deriving DecidableEq, Repr

/-- The external file system: `fs::canonicalize` (byte form of the
canonical path) and `util::load_bytes`, both fallible. -/
structure FileSys where
  canonical : Nat → Except FileError (List Nat)
  loadBytes : Nat → Except FileError (List Nat)

/-- Source `FileId::new`: FNV-hash of the canonicalized path bytes;
fails when the path cannot be resolved. -/
def fileIdNew (fs : FileSys) (src : Nat) : Except FileError Nat :=
  (fs.canonical src).map fnv64

/-- Source `FileCache`: dictionary from file identity to the shared byte
buffer. -/
structure FileCache where
  files : List (Nat × List Nat)
deriving DecidableEq, Repr

/-- Source `FileCache::add_file`: compute the identity (fails if the path
does not resolve); on an occupied entry fail with `FileAlreadyAdded`
without reading; on a vacant entry load the bytes (propagating IO errors
before anything is inserted) and insert. -/
def FileCache.add_file (fs : FileSys) (c : FileCache) (src : Nat) :
    Except FileError Unit × FileCache :=
  match fileIdNew fs src with
  | .error e => (.error e, c)
  | .ok id =>
    match lookupM c.files id with
    | some _ => (.error .fileAlreadyAdded, c)
    | none =>
      match fs.loadBytes src with
      | .error e => (.error e, c)
      | .ok bytes => (.ok (), ⟨insertM c.files id bytes⟩)

/-- Source `FileCache::get_file`: recompute the identity and look it up;
never mutates. -/
def FileCache.get_file (fs : FileSys) (c : FileCache) (src : Nat) :
    Except FileError (List Nat) :=
  match fileIdNew fs src with
  | .error e => .error e
  | .ok id =>
    match lookupM c.files id with
    | some bytes => .ok bytes
    | none => .error .fileNotFound

/-! ## rsx-images (`src/rsx-images/src/`) -/

/-- Error kind of the image cache (rsx-images/src/error.rs); the payloads
of the IO/library variants are dropped. -/
inductive ImageError
  | ioError
  | libError
  | dataUriDecodeError
  | imageAlreadyAdded
deriving DecidableEq, Repr

/-- Encoded-image container formats supported by the external codec. -/
inductive ImageEncodingFormat
  | png | jpeg | gif | webp | pnm | tiff | tga | bmp | ico | hdr
deriving DecidableEq, Repr

/-- Byte string of the format name used in `data:image/{format}` URIs,
as exposed by the external `AsRef` of `ImageEncodingFormat`. -/
def ImageEncodingFormat.asRefBytes : ImageEncodingFormat → List Nat
  | .png => [112, 110, 103]
  | .jpeg => [106, 112, 101, 103]
  | .gif => [103, 105, 102]
  | .webp => [119, 101, 98, 112]
  | .pnm => [112, 110, 109]
  | .tiff => [116, 105, 102, 102]
  | .tga => [116, 103, 97]
  | .bmp => [98, 109, 112]
  | .ico => [105, 99, 111]
  | .hdr => [104, 100, 114]

/-- Decoded pixel-format tag (`ImagePixelFormat` in rsx-shared). -/
inductive ImagePixelFormat
  | gray (bits : Nat)
  | rgba (bits : Nat)
  | bgra (bits : Nat)
deriving DecidableEq, Repr

/-- Source `EncodedImage`: raw bytes, or raw bytes plus the originating
data-URI text; both carry the sniffed format and optional size info. -/
inductive EncodedImage
  | bytes (format : ImageEncodingFormat) (bytes : List Nat) (sizeInfo : Option (Nat × Nat))
  | bytesAndDataUri (format : ImageEncodingFormat) (bytes : List Nat)
      (dataUri : List Nat) (sizeInfo : Option (Nat × Nat))
deriving DecidableEq, Repr

/-- Payload descriptor passed to the keys API (`ImageEncodedData`). -/
inductive ImageEncodedData
  | bytes (format : ImageEncodingFormat) (bytes : List Nat)
  | dataUri (dataUri : List Nat)
deriving DecidableEq, Repr

/-- Source `EncodedImage::info`. -/
def EncodedImage.info : EncodedImage → ImageEncodedData
  | EncodedImage.bytes format bs _ => ImageEncodedData.bytes format bs
  | EncodedImage.bytesAndDataUri _ _ dataUri _ => ImageEncodedData.dataUri dataUri

/-- Source `DecodedImage`: pixel format, dimensions, shared pixel buffer. -/
structure DecodedImage where
  format : ImagePixelFormat
  size : Nat × Nat
  pixels : List Nat
deriving DecidableEq, Repr

/-- Resource-update log events (`Update` in rsx-resource-updates), with
the default key types `DefaultImageKey` / `DefaultFontKey` /
`DefaultFontInstanceKey` (u64 newtypes) as `Nat`. -/
inductive Update
  | addImage (key : Nat) (dataUri : List Nat)
  | addFont (key : Nat) (dataUri : List Nat)
  | addFontInstance (key : Nat) (instanceKey : Nat) (size : Nat)
deriving DecidableEq, Repr

/-- Source `DefaultImageKeysAPI`: the drainable update log plus the
next-image-key counter. -/
structure DefaultImageKeysAPI where
  up : List Update
  nextImageKey : Nat
deriving DecidableEq, Repr

/-- Source `DefaultImageKeysAPI::add_image`: allocate the next image key,
append an `AddImage` event whose payload is a fresh image data URI (for a
raw-bytes resource) or the originating data URI, and return the key. -/
def DefaultImageKeysAPI.add_image (api : DefaultImageKeysAPI) (encoded : ImageEncodedData) :
    Nat × DefaultImageKeysAPI :=
  let imageKey := api.nextImageKey
  let uri := match encoded with
    | .bytes format bytes => to_image_data_uri format.asRefBytes bytes
    | .dataUri dataUri => dataUri
  (imageKey, ⟨api.up ++ [Update.addImage imageKey uri], api.nextImageKey + 1⟩)

/-- Source `DefaultImageKeysAPI::take_resource_updates`: drain the log. -/
def DefaultImageKeysAPI.take_resource_updates (api : DefaultImageKeysAPI) :
    List Update × DefaultImageKeysAPI :=
  (api.up, ⟨[], api.nextImageKey⟩)

/-- A resident image entry (`Image<ImageKey>` minus the shared-pointer
wrapper): pixel format, dimensions, pixels and the external key. -/
structure ImageEntry where
  format : ImagePixelFormat
  size : Nat × Nat
  pixels : List Nat
  externalKey : Nat
deriving DecidableEq, Repr

/-- Source `ImageCache`: the keys API plus the identity dictionary. -/
structure ImageCache where
  api : DefaultImageKeysAPI
  images : List (Nat × ImageEntry)
deriving DecidableEq, Repr

/-- Source `ImageCache::add_image`; the external codec
(`DecodedImage::from_encoded_image`) is passed as the function `dec`.
On an occupied identity fail with `ImageAlreadyAdded` before any decode
work; on a vacant identity decode (propagating failures with no state
change), allocate the external key through the API (which appends the
`AddImage` event) and insert the resident image. -/
def ImageCache.add_image (dec : EncodedImage → Except ImageError DecodedImage)
    (c : ImageCache) (image_id : Nat) (encoded : EncodedImage) :
    Except ImageError Unit × ImageCache :=
  match lookupM c.images image_id with
  | some _ => (.error .imageAlreadyAdded, c)
  | none =>
    match dec encoded with
    | .error e => (.error e, c)
    | .ok decoded =>
      let (external_key, api) := c.api.add_image encoded.info
      (.ok (), ⟨api, insertM c.images image_id
        ⟨decoded.format, decoded.size, decoded.pixels, external_key⟩⟩)

/-! ## rsx-fonts (`src/rsx-fonts/src/`) -/

/-- Error kind of the font crate (rsx-fonts/src/error.rs); payloads of
the engine/IO/UTF-8 variants are dropped. -/
inductive FontError
  | ftError
  | ioError
  | utf8Error
  | dataUriDecodeError
  | faceAlreadyAdded
  | fontInstanceAlreadyAdded
  | faceNotFound
  | faceNotLoaded
  | faceFamilyNameMissing
  | faceSizeMissing
  | faceGlyphMissing
deriving DecidableEq, Repr

/-- Source `FontFace`: the raw engine handle is replaced by the one
query the cache code reads from it directly, the family name (which can
fail per face: missing name or invalid UTF-8); the originating shared
byte buffer and face index are kept as in the source. -/
structure FontFace where
  bytes : List Nat
  faceIndex : Nat
  family : Except FontError (List Nat)
deriving DecidableEq, Repr

/-- Face-level metrics (`FontSizeMetrics` in types.rs). -/
structure FontSizeMetrics where
  nominal_width : Nat
  nominal_height : Nat
  ascender_64 : Int
  descender_64 : Int
  height_64 : Int
  max_advance_64 : Int
deriving DecidableEq, Repr

/-- Glyph-level metrics (`GlyphDimensions` in types.rs). -/
structure GlyphDimensions where
  glyph_index : Nat
  width_64 : Int
  height_64 : Int
  hori_advance_64 : Int
  vert_advance_64 : Int
deriving DecidableEq, Repr

/-- Raw glyph metrics reported by the engine (`FT_Glyph_Metrics`). -/
structure RawGlyphMetrics where
  width : Int
  height : Int
  horiAdvance : Int
  vertAdvance : Int
deriving DecidableEq, Repr

/-- The external FreeType engine. `newFace` is `FT_New_Memory_Face`;
`charIndex` is `FT_Get_Char_Index`; `glyphMetrics` is the
`set_char_size` + `load_glyph` + glyph-metrics sequence, a function of
the point size, DPI and glyph index because the code re-sets the size
immediately before every query; `sizeMetrics` is the `set_char_size` +
size-metrics sequence. -/
structure FontEngine where
  newFace : List Nat → Nat → Except FontError FontFace
  charIndex : FontFace → Nat → Nat
  glyphMetrics : FontFace → Nat → Nat → Nat → Except FontError RawGlyphMetrics
  sizeMetrics : FontFace → Nat → Nat → Except FontError FontSizeMetrics

/-- Source `FontContext`: dictionary from font identity to loaded face
(the process-wide `FT_Library` handle lives in the engine parameter). -/
structure FontContext where
  faces : List (Nat × FontFace)
deriving DecidableEq, Repr

/-- Source `FontContext::add_face`: fail with `FaceAlreadyAdded` on an
occupied identity, otherwise load the face via the engine (propagating
engine failures) and insert it. -/
def FontContext.add_face (eng : FontEngine) (ctx : FontContext) (font_id : Nat)
    (bytes : List Nat) (face_index : Nat) : Except FontError Unit × FontContext :=
  match lookupM ctx.faces font_id with
  | some _ => (.error .faceAlreadyAdded, ctx)
  | none =>
    match eng.newFace bytes face_index with
    | .error e => (.error e, ctx)
    | .ok face => (.ok (), ⟨insertM ctx.faces font_id face⟩)

/-- Source `FontContext::get_family_name`. -/
def FontContext.get_family_name (ctx : FontContext) (font_id : Nat) :
    Except FontError (List Nat) :=
  match lookupM ctx.faces font_id with
  | none => .error .faceNotFound
  | some face => face.family

/-- An identity-bearing font instance (`FontInstance` minus its two
interior-mutable shaping caches, which are threaded as explicit state by
the shaping functions below). -/
structure FontInstance where
  font_id : Nat
  size : Nat
  dpi : Nat
  external_key : Nat
  external_instance_key : Nat
deriving DecidableEq, Repr

/-- Source `FontContext::get_glyph_index`. Characters are modelled by
their code points. -/
def FontContext.get_glyph_index (eng : FontEngine) (ctx : FontContext)
    (inst : FontInstance) (c : Nat) : Except FontError Nat :=
  match lookupM ctx.faces inst.font_id with
  | none => .error .faceNotFound
  | some face => .ok (eng.charIndex face c)

/-- Source `FontContext::get_glyph_dimensions`: look up the face, take
`point_size = size * 64`, resolve the glyph index, then query the glyph
metrics at that size and DPI. -/
def FontContext.get_glyph_dimensions (eng : FontEngine) (ctx : FontContext)
    (inst : FontInstance) (c : Nat) : Except FontError GlyphDimensions :=
  match lookupM ctx.faces inst.font_id with
  | none => .error .faceNotFound
  | some face =>
    let point_size := inst.size * 64
    match FontContext.get_glyph_index eng ctx inst c with
    | .error e => .error e
    | .ok glyph_index =>
      match eng.glyphMetrics face point_size inst.dpi glyph_index with
      | .error e => .error e
      | .ok m => .ok ⟨glyph_index, m.width, m.height, m.horiAdvance, m.vertAdvance⟩

/-- Source `FontContext::get_global_size_metrics`. -/
def FontContext.get_global_size_metrics (eng : FontEngine) (ctx : FontContext)
    (inst : FontInstance) : Except FontError FontSizeMetrics :=
  match lookupM ctx.faces inst.font_id with
  | none => .error .faceNotFound
  | some face => eng.sizeMetrics face (inst.size * 64) inst.dpi

/-- Source `DefaultGlyphInstance`: glyph index and 1/64-pixel position. -/
structure GlyphInstance where
  glyph_index : Nat
  x_64 : Int
  y_64 : Int
deriving DecidableEq, Repr

/-- Source `GlyphStore`: keys, total advance, positioned glyphs and the
generation id. -/
structure GlyphStore where
  font_key : Nat
  font_instance_key : Nat
  width_64 : Int
  height_64 : Int
  glyphs : List GlyphInstance
  generation_id : Nat
deriving DecidableEq, Repr

/-- The generation id computed in `shape_text_h`/`shape_text_v`: an FNV
hash of the text alone (the two lines hashing the instance keys are
commented out in the source). Rust's `Hash for str` feeds the bytes
followed by a `0xff` terminator. -/
def textHash (text : List Nat) : Nat :=
  fnv64 (text ++ [255])

/-- The character loop of `shape_text_h`: query each character's glyph
dimensions, emit a glyph at the current pen position on the ascender
baseline, and advance the pen by the horizontal advance. Returns the
glyphs and the final pen position. -/
def shapeLoopH (eng : FontEngine) (ctx : FontContext) (inst : FontInstance)
    (asc : Int) : List Nat → Int → Except FontError (List GlyphInstance × Int)
  | [], pen => .ok ([], pen)
  | c :: rest, pen =>
    match FontContext.get_glyph_dimensions eng ctx inst c with
    | .error e => .error e
    | .ok gd =>
      match shapeLoopH eng ctx inst asc rest (pen + gd.hori_advance_64) with
      | .error e => .error e
      | .ok (glyphs, penEnd) => .ok (⟨gd.glyph_index, pen, asc⟩ :: glyphs, penEnd)

/-- The character loop of `shape_text_v`: each glyph sits at x = 0 and
the pen advances by the vertical advance. -/
def shapeLoopV (eng : FontEngine) (ctx : FontContext) (inst : FontInstance) :
    List Nat → Int → Except FontError (List GlyphInstance × Int)
  | [], pen => .ok ([], pen)
  | c :: rest, pen =>
    match FontContext.get_glyph_dimensions eng ctx inst c with
    | .error e => .error e
    | .ok gd =>
      match shapeLoopV eng ctx inst rest (pen + gd.vert_advance_64) with
      | .error e => .error e
      | .ok (glyphs, penEnd) => .ok (⟨gd.glyph_index, 0, pen⟩ :: glyphs, penEnd)

/-- Source `FontContext::shape_text_h`. The instance's interior-mutable
horizontal shaping cache is threaded as explicit state; the third result
component counts engine metric queries performed by the call (one
size-metrics query plus one glyph query per character on a miss, zero on
a hit). -/
def FontContext.shape_text_h (eng : FontEngine) (ctx : FontContext)
    (inst : FontInstance) (cache : List (Nat × GlyphStore)) (text : List Nat) :
    Except FontError (GlyphStore × List (Nat × GlyphStore) × Nat) :=
  let generation_id := textHash text
  match lookupM cache generation_id with
  | some store => .ok (store, cache, 0)
  | none =>
    match FontContext.get_global_size_metrics eng ctx inst with
    | .error e => .error e
    | .ok font_size_metrics =>
      match shapeLoopH eng ctx inst font_size_metrics.ascender_64 text 0 with
      | .error e => .error e
      | .ok (glyphs, pen_position_64) =>
        let store : GlyphStore :=
          ⟨inst.external_key, inst.external_instance_key, pen_position_64,
            font_size_metrics.height_64, glyphs, generation_id⟩
        .ok (store, insertM cache generation_id store, text.length + 1)

/-- Source `FontContext::shape_text_v`, threading the vertical cache. -/
def FontContext.shape_text_v (eng : FontEngine) (ctx : FontContext)
    (inst : FontInstance) (cache : List (Nat × GlyphStore)) (text : List Nat) :
    Except FontError (GlyphStore × List (Nat × GlyphStore) × Nat) :=
  let generation_id := textHash text
  match lookupM cache generation_id with
  | some store => .ok (store, cache, 0)
  | none =>
    match FontContext.get_global_size_metrics eng ctx inst with
    | .error e => .error e
    | .ok font_size_metrics =>
      match shapeLoopV eng ctx inst text 0 with
      | .error e => .error e
      | .ok (glyphs, pen_position_64) =>
        let store : GlyphStore :=
          ⟨inst.external_key, inst.external_instance_key,
            font_size_metrics.max_advance_64, pen_position_64, glyphs, generation_id⟩
        .ok (store, insertM cache generation_id store, text.length + 1)

/-- Source `EncodedFont`: raw bytes, or raw bytes plus the originating
data-URI text. -/
inductive EncodedFont
  | bytes (bytes : List Nat)
  | bytesAndDataUri (bytes : List Nat) (dataUri : List Nat)
deriving DecidableEq, Repr

/-- Payload descriptor passed to the keys API (`FontEncodedData`). -/
inductive FontEncodedData
  | bytes (bytes : List Nat)
  | dataUri (dataUri : List Nat)
deriving DecidableEq, Repr

/-- Source `EncodedFont::bytes()`: both variants expose the raw bytes. -/
def EncodedFont.rawBytes : EncodedFont → List Nat
  | EncodedFont.bytes bs => bs
  | EncodedFont.bytesAndDataUri bs _ => bs

/-- Source `EncodedFont::info`. -/
def EncodedFont.info : EncodedFont → FontEncodedData
  | EncodedFont.bytes bs => FontEncodedData.bytes bs
  | EncodedFont.bytesAndDataUri _ dataUri => FontEncodedData.dataUri dataUri

/-- Source `DecodedFont`: the shared byte buffer and the face index. -/
structure DecodedFont where
  bytes : List Nat
  face_index : Nat
deriving DecidableEq, Repr

/-- Source `DecodedFont::from_encoded_font`. -/
def DecodedFont.from_encoded_font (encoded : EncodedFont) (face_index : Nat) : DecodedFont :=
  ⟨encoded.rawBytes, face_index⟩

/-- Source `DefaultFontKeysAPI`: the drainable update log plus the two
key counters. -/
structure DefaultFontKeysAPI where
  up : List Update
  nextFontKey : Nat
  nextFontInstanceKey : Nat
deriving DecidableEq, Repr

/-- Source `DefaultFontKeysAPI::add_font`: allocate the next font key and
append an `AddFont` event carrying a font data URI (built from the raw
bytes, or the originating data URI). -/
def DefaultFontKeysAPI.add_font (api : DefaultFontKeysAPI) (encoded : FontEncodedData) :
    Nat × DefaultFontKeysAPI :=
  let font_key := api.nextFontKey
  let uri := match encoded with
    | FontEncodedData.bytes bs => to_font_data_uri bs
    | FontEncodedData.dataUri dataUri => dataUri
  (font_key, ⟨api.up ++ [Update.addFont font_key uri], api.nextFontKey + 1,
    api.nextFontInstanceKey⟩)

/-- Source `DefaultFontKeysAPI::add_font_instance`: allocate the next
instance key and append an `AddFontInstance` event (only the size of the
`FontInstanceResourceData` is recorded in the event). -/
def DefaultFontKeysAPI.add_font_instance (api : DefaultFontKeysAPI) (font_key : Nat)
    (size : Nat) (dpi : Nat) : Nat × DefaultFontKeysAPI :=
  let font_instance_key := api.nextFontInstanceKey
  let _ := dpi
  (font_instance_key, ⟨api.up ++ [Update.addFontInstance font_key font_instance_key size],
    api.nextFontKey, api.nextFontInstanceKey + 1⟩)

/-- Source `DefaultFontKeysAPI::take_resource_updates`: drain the log. -/
def DefaultFontKeysAPI.take_resource_updates (api : DefaultFontKeysAPI) :
    List Update × DefaultFontKeysAPI :=
  (api.up, ⟨[], api.nextFontKey, api.nextFontInstanceKey⟩)

/-- Modelled from the spec: the library default font size, the constant
`DEFAULT_FONT_SIZE` of the external rsx-shared crate (its concrete value
does not affect any claim). -/
def defaultFontSize : Nat := 16

/-- Modelled from the spec: the library default DPI, the constant
`DEFAULT_FONT_DPI` of the external rsx-shared crate (its concrete value
does not affect any claim). -/
def defaultFontDpi : Nat := 72

/-- Source `FontInstanceId`: hash of the family name with integer size
and DPI; the same resource iff all three match. -/
structure FontInstanceId where
  family_name : Nat
  size : Nat
  dpi : Nat
deriving DecidableEq, Repr

/-- Source `FontInstanceId::from_family_str`: FNV-hash the family name. -/
def FontInstanceId.from_family_str (family : List Nat) (size dpi : Nat) : FontInstanceId :=
  ⟨fnv64 family, size, dpi⟩

/-- Source `FontInstanceId::resize`: keep family hash and DPI. -/
def FontInstanceId.resize (id : FontInstanceId) (size : Nat) : FontInstanceId :=
  ⟨id.family_name, size, id.dpi⟩

/-- Source `FontInstanceId::resize_dpi`: keep only the family hash. -/
def FontInstanceId.resize_dpi (id : FontInstanceId) (size dpi : Nat) : FontInstanceId :=
  ⟨id.family_name, size, dpi⟩

/-- Source `FontCache`: keys API, font context, instance dictionary and
the default-font identity. -/
structure FontCache where
  api : DefaultFontKeysAPI
  context : FontContext
  instances : List (FontInstanceId × FontInstance)
  default_font : Option FontInstanceId
deriving DecidableEq, Repr

/-- Source `FontCache::add_font`: load the face into the context first
(`FaceAlreadyAdded` or engine errors propagate), read the family name,
derive the canonical instance identity at the default size/DPI, set it
as the default font if none is set yet, then register the instance —
failing with `FontInstanceAlreadyAdded` if that identity already exists,
otherwise allocating a font key (AddFont event) and an instance key
(AddFontInstance event). -/
def FontCache.add_font (eng : FontEngine) (c : FontCache) (font_id : Nat)
    (encoded : EncodedFont) (face_index : Nat) : Except FontError Unit × FontCache :=
  let decoded := DecodedFont.from_encoded_font encoded face_index
  match FontContext.add_face eng c.context font_id decoded.bytes face_index with
  | (.error e, ctx) => (.error e, { c with context := ctx })
  | (.ok _, ctx) =>
    match FontContext.get_family_name ctx font_id with
    | .error e => (.error e, { c with context := ctx })
    | .ok family_name =>
      let size := defaultFontSize
      let dpi := defaultFontDpi
      let font_instance_id := FontInstanceId.from_family_str family_name size dpi
      let default_font := some (c.default_font.getD font_instance_id)
      match lookupM c.instances font_instance_id with
      | some _ =>
        (.error .fontInstanceAlreadyAdded,
          { c with context := ctx, default_font := default_font })
      | none =>
        let (external_key, api) := c.api.add_font encoded.info
        let (external_instance_key, api) := api.add_font_instance external_key size dpi
        (.ok (), ⟨api, ctx,
          insertM c.instances font_instance_id
            ⟨font_id, size, dpi, external_key, external_instance_key⟩,
          default_font⟩)

/-- Source `FontCache::get_family_name_for_id`. -/
def FontCache.get_family_name_for_id (c : FontCache) (id : Nat) :
    Except FontError (List Nat) :=
  FontContext.get_family_name c.context id

/-- Source `FontCache::get_or_insert_font`: resolve the instance at the
default size/DPI to find the font identity and its already-allocated
font key (`none` if the font was never added); then return the cached
size/DPI variant, or create it, allocating a fresh instance key only on
this first request. -/
def FontCache.get_or_insert_font (c : FontCache) (font_instance_id : FontInstanceId) :
    Option FontInstance × FontCache :=
  match lookupM c.instances (font_instance_id.resize_dpi defaultFontSize defaultFontDpi) with
  | none => (none, c)
  | some inst0 =>
    match lookupM c.instances font_instance_id with
    | some inst => (some inst, c)
    | none =>
      let size := font_instance_id.size
      let dpi := font_instance_id.dpi
      let (external_instance_key, api) :=
        c.api.add_font_instance inst0.external_key size dpi
      let inst : FontInstance := ⟨inst0.font_id, size, dpi, inst0.external_key,
        external_instance_key⟩
      (some inst, ⟨api, c.context, insertM c.instances font_instance_id inst,
        c.default_font⟩)

/-! ## Cache theorems -/

theorem add_file_ok_inv {fs : FileSys} {fc fc1 : FileCache} {src : Nat}
    (hf : FileCache.add_file fs fc src = (.ok (), fc1)) :
    ∃ id bytes, fileIdNew fs src = .ok id ∧ lookupM fc.files id = none ∧
      fs.loadBytes src = .ok bytes ∧ fc1 = ⟨insertM fc.files id bytes⟩ := by
  unfold FileCache.add_file at hf
  split at hf
  · simp at hf
  · rename_i id hid
    split at hf
    · simp at hf
    · rename_i hl
      split at hf
      · simp at hf
      · rename_i bytes hb
        refine ⟨id, bytes, hid, hl, hb, ?_⟩
        exact ((Prod.mk.injEq _ _ _ _).mp hf).2.symm

theorem add_image_ok_inv {dec : EncodedImage → Except ImageError DecodedImage}
    {ic ic1 : ImageCache} {image_id : Nat} {enc : EncodedImage}
    (hi : ImageCache.add_image dec ic image_id enc = (.ok (), ic1)) :
    ∃ d, lookupM ic.images image_id = none ∧ dec enc = .ok d ∧
      ic1 = ⟨(ic.api.add_image enc.info).2,
        insertM ic.images image_id
          ⟨d.format, d.size, d.pixels, (ic.api.add_image enc.info).1⟩⟩ := by
  unfold ImageCache.add_image at hi
  split at hi
  · simp at hi
  · rename_i hl
    split at hi
    · simp at hi
    · rename_i d hd
      refine ⟨d, hl, hd, ?_⟩
      exact ((Prod.mk.injEq _ _ _ _).mp hi).2.symm

/-- C1: add-once for all three caches. Under the conditions that make a
first add succeed (fresh identity, resolvable path / decodable payload /
loadable face), the first `add` returns success; an immediately repeated
`add` of the same identity returns the corresponding AlreadyAdded error
(`FileAlreadyAdded`, `ImageAlreadyAdded`, `FaceAlreadyAdded`) with the
cache state — and hence the payload stored under the identity —
unchanged from the first call. -/
theorem C1_add_once
    (fs : FileSys) (fc : FileCache) (src id : Nat) (bytes : List Nat)
    (dec : EncodedImage → Except ImageError DecodedImage) (ic : ImageCache)
    (image_id : Nat) (enc : EncodedImage) (d : DecodedImage)
    (eng : FontEngine) (kc : FontCache) (font_id : Nat) (fenc : EncodedFont)
    (face_index : Nat) (face : FontFace) (fam : List Nat)
    (hid : fileIdNew fs src = .ok id)
    (hfl : lookupM fc.files id = none)
    (hlb : fs.loadBytes src = .ok bytes)
    (hil : lookupM ic.images image_id = none)
    (hdec : dec enc = .ok d)
    (hkl : lookupM kc.context.faces font_id = none)
    (hnf : eng.newFace fenc.rawBytes face_index = .ok face)
    (hfam : face.family = .ok fam)
    (hki : lookupM kc.instances
      (FontInstanceId.from_family_str fam defaultFontSize defaultFontDpi) = none) :
    (∃ fc1, FileCache.add_file fs fc src = (.ok (), fc1) ∧
      FileCache.add_file fs fc1 src = (.error .fileAlreadyAdded, fc1) ∧
      FileCache.get_file fs fc1 src = .ok bytes) ∧
    (∃ ic1, ImageCache.add_image dec ic image_id enc = (.ok (), ic1) ∧
      ImageCache.add_image dec ic1 image_id enc = (.error .imageAlreadyAdded, ic1) ∧
      ∃ entry, lookupM ic1.images image_id = some entry ∧ entry.format = d.format ∧
        entry.size = d.size ∧ entry.pixels = d.pixels) ∧
    (∃ kc1, FontCache.add_font eng kc font_id fenc face_index = (.ok (), kc1) ∧
      FontCache.add_font eng kc1 font_id fenc face_index = (.error .faceAlreadyAdded, kc1) ∧
      FontCache.get_family_name_for_id kc1 font_id = .ok fam) := by
  refine ⟨⟨⟨insertM fc.files id bytes⟩, ?_, ?_, ?_⟩, ?_, ?_⟩
  · simp only [FileCache.add_file, hid, hfl, hlb]
  · simp only [FileCache.add_file, hid, lookupM_insert_self]
  · simp only [FileCache.get_file, hid, lookupM_insert_self]
  · refine ⟨⟨(ic.api.add_image enc.info).2,
      insertM ic.images image_id
        ⟨d.format, d.size, d.pixels, (ic.api.add_image enc.info).1⟩⟩, ?_, ?_, ?_⟩
    · simp only [ImageCache.add_image, hil, hdec]
    · simp only [ImageCache.add_image, lookupM_insert_self]
    · exact ⟨_, lookupM_insert_self _ _ _, rfl, rfl, rfl⟩
  · refine ⟨⟨((kc.api.add_font fenc.info).2.add_font_instance (kc.api.add_font fenc.info).1
        defaultFontSize defaultFontDpi).2,
      ⟨insertM kc.context.faces font_id face⟩,
      insertM kc.instances (FontInstanceId.from_family_str fam defaultFontSize defaultFontDpi)
        ⟨font_id, defaultFontSize, defaultFontDpi, (kc.api.add_font fenc.info).1,
          ((kc.api.add_font fenc.info).2.add_font_instance (kc.api.add_font fenc.info).1
            defaultFontSize defaultFontDpi).1⟩,
      some (kc.default_font.getD
        (FontInstanceId.from_family_str fam defaultFontSize defaultFontDpi))⟩, ?_, ?_, ?_⟩
    · simp only [FontCache.add_font, FontContext.add_face, DecodedFont.from_encoded_font,
        hkl, hnf, FontContext.get_family_name, lookupM_insert_self, hfam, hki,
        DefaultFontKeysAPI.add_font, DefaultFontKeysAPI.add_font_instance]
    · simp only [FontCache.add_font, FontContext.add_face, DecodedFont.from_encoded_font,
        lookupM_insert_self]
    · simp only [FontCache.get_family_name_for_id, FontContext.get_family_name,
        lookupM_insert_self, hfam]

/-- Concrete file system used by witnesses: every path canonicalizes to
the byte `[1]` and loads the bytes `[7, 7]`. -/
def wFileSys : FileSys := ⟨fun _ => .ok [1], fun _ => .ok [7, 7]⟩

/-- Concrete encoded image used by witnesses. -/
def wEnc : EncodedImage := EncodedImage.bytes ImageEncodingFormat.png [1, 2] none

/-- Concrete decoded image used by witnesses. -/
def wDecoded : DecodedImage := ⟨ImagePixelFormat.rgba 8, (2, 2), [0, 0, 0, 0]⟩

/-- Concrete always-succeeding decoder used by witnesses. -/
def wDec : EncodedImage → Except ImageError DecodedImage := fun _ => .ok wDecoded

/-- Concrete always-failing decoder used by witnesses. -/
def wDecFail : EncodedImage → Except ImageError DecodedImage := fun _ => .error .libError

/-- Concrete resident image entry used by witnesses. -/
def wEntry : ImageEntry := ⟨ImagePixelFormat.rgba 8, (2, 2), [], 0⟩

/-- Concrete loaded face used by witnesses (family name `FS`). -/
def wFace : FontFace := ⟨[3], 0, .ok [70, 83]⟩

/-- Concrete font engine used by witnesses: loading succeeds and reports
family `FS`; the glyph index is the code point plus one; metrics scale
with the requested point size (so different instance sizes shape
differently). -/
def wEngine : FontEngine :=
  ⟨fun bs fi => .ok ⟨bs, fi, .ok [70, 83]⟩,
   fun _ c => c + 1,
   fun _ ps _ _ => .ok ⟨1, 2, (ps : Int) / 4, (ps : Int) / 2⟩,
   fun _ ps _ => .ok ⟨ps / 64, ps / 64, (ps : Int), -(ps : Int) / 4,
     (ps : Int) * 2, (ps : Int) * 3⟩⟩

/-- Concrete font context holding `wFace` under font identity 9. -/
def wCtx : FontContext := ⟨[(9, wFace)]⟩

/-- Concrete size-1 instance of font 9. -/
def wInst1 : FontInstance := ⟨9, 1, 72, 0, 0⟩

/-- Concrete size-2 instance of font 9. -/
def wInst2 : FontInstance := ⟨9, 2, 72, 0, 1⟩

/-- Witness for C1 at concrete inputs: each cache accepts a fresh
identity once, rejects the immediate repeat with its AlreadyAdded error,
and still serves the first call's payload. -/
theorem C1_add_once_witness :
    (∃ fc1, FileCache.add_file wFileSys ⟨[]⟩ 0 = (.ok (), fc1) ∧
      FileCache.add_file wFileSys fc1 0 = (.error .fileAlreadyAdded, fc1) ∧
      FileCache.get_file wFileSys fc1 0 = .ok [7, 7]) ∧
    (∃ ic1, ImageCache.add_image wDec ⟨⟨[], 0⟩, []⟩ 5 wEnc = (.ok (), ic1) ∧
      ImageCache.add_image wDec ic1 5 wEnc = (.error .imageAlreadyAdded, ic1) ∧
      ∃ entry, lookupM ic1.images 5 = some entry ∧ entry.format = wDecoded.format ∧
        entry.size = wDecoded.size ∧ entry.pixels = wDecoded.pixels) ∧
    (∃ kc1, FontCache.add_font wEngine ⟨⟨[], 0, 0⟩, ⟨[]⟩, [], none⟩ 9
        (EncodedFont.bytes [3]) 0 = (.ok (), kc1) ∧
      FontCache.add_font wEngine kc1 9 (EncodedFont.bytes [3]) 0
        = (.error .faceAlreadyAdded, kc1) ∧
      FontCache.get_family_name_for_id kc1 9 = .ok [70, 83]) :=
  C1_add_once wFileSys ⟨[]⟩ 0 (fnv64 [1]) [7, 7] wDec ⟨⟨[], 0⟩, []⟩ 5 wEnc wDecoded
    wEngine ⟨⟨[], 0, 0⟩, ⟨[]⟩, [], none⟩ 9 (EncodedFont.bytes [3]) 0 wFace [70, 83]
    rfl rfl rfl rfl rfl rfl rfl rfl rfl

/-- C9: image-add failure atomicity. If decoding fails, the error is
returned and the image cache is exactly as before the call (no entry, no
key allocation, no AddImage event, since the whole state including the
keys API is unchanged); on a duplicate identity the call fails with
`ImageAlreadyAdded` with an unchanged state and a result independent of
the decoder, i.e. before any decode work. -/
theorem C9_image_add_atomic (dec : EncodedImage → Except ImageError DecodedImage)
    (ic : ImageCache) (image_id : Nat) (enc : EncodedImage) :
    (∀ e, lookupM ic.images image_id = none → dec enc = .error e →
      ImageCache.add_image dec ic image_id enc = (.error e, ic)) ∧
    (∀ entry, lookupM ic.images image_id = some entry →
      ∀ dec' : EncodedImage → Except ImageError DecodedImage,
        ImageCache.add_image dec' ic image_id enc = (.error .imageAlreadyAdded, ic)) := by
  constructor
  · intro e hl hd
    simp only [ImageCache.add_image, hl, hd]
  · intro entry hl dec'
    simp only [ImageCache.add_image, hl]

/-- Witness for C9: a failing decoder leaves the empty cache untouched;
a duplicate identity is rejected whatever the decoder would do. -/
theorem C9_image_add_atomic_witness :
    ImageCache.add_image wDecFail ⟨⟨[], 0⟩, []⟩ 5 wEnc = (.error .libError, ⟨⟨[], 0⟩, []⟩) ∧
    ImageCache.add_image wDec ⟨⟨[], 0⟩, [(5, wEntry)]⟩ 5 wEnc
      = (.error .imageAlreadyAdded, ⟨⟨[], 0⟩, [(5, wEntry)]⟩) :=
  ⟨(C9_image_add_atomic wDecFail ⟨⟨[], 0⟩, []⟩ 5 wEnc).1 .libError rfl rfl,
   (C9_image_add_atomic wDecFail ⟨⟨[], 0⟩, [(5, wEntry)]⟩ 5 wEnc).2 wEntry (by decide) wDec⟩

/-- C3: font keys are allocated once and reused. If the family was never
added (no instance at the default size/DPI), `get_or_insert_font`
returns nothing and changes nothing. If the default-size instance
exists, requesting a fresh size/DPI variant returns an instance carrying
the same font identity and the same external font key, allocates no new
font key (only one new instance key), and an immediately repeated call
returns the very same instance and state; requesting an already-cached
variant returns it with no allocation at all. A successful `add_font`
allocates exactly one font key. -/
theorem C3_font_key_reuse (kc : FontCache) (fid : FontInstanceId) :
    (lookupM kc.instances (fid.resize_dpi defaultFontSize defaultFontDpi) = none →
      FontCache.get_or_insert_font kc fid = (none, kc)) ∧
    (∀ inst0, lookupM kc.instances (fid.resize_dpi defaultFontSize defaultFontDpi) = some inst0 →
      lookupM kc.instances fid = none →
      ∃ inst kc1, FontCache.get_or_insert_font kc fid = (some inst, kc1) ∧
        inst.font_id = inst0.font_id ∧
        inst.external_key = inst0.external_key ∧
        kc1.api.nextFontKey = kc.api.nextFontKey ∧
        kc1.api.nextFontInstanceKey = kc.api.nextFontInstanceKey + 1 ∧
        FontCache.get_or_insert_font kc1 fid = (some inst, kc1)) ∧
    (∀ inst0 inst, lookupM kc.instances (fid.resize_dpi defaultFontSize defaultFontDpi) = some inst0 →
      lookupM kc.instances fid = some inst →
      FontCache.get_or_insert_font kc fid = (some inst, kc)) ∧
    (∀ (eng : FontEngine) (font_id : Nat) (enc : EncodedFont) (face_index : Nat)
      (face : FontFace) (fam : List Nat),
      lookupM kc.context.faces font_id = none →
      eng.newFace enc.rawBytes face_index = .ok face →
      face.family = .ok fam →
      lookupM kc.instances
        (FontInstanceId.from_family_str fam defaultFontSize defaultFontDpi) = none →
      (FontCache.add_font eng kc font_id enc face_index).2.api.nextFontKey
        = kc.api.nextFontKey + 1) := by
  refine ⟨?_, ?_, ?_, ?_⟩
  · intro hnone
    simp only [FontCache.get_or_insert_font, hnone]
  · intro inst0 hdef hvac
    have hne : fid ≠ fid.resize_dpi defaultFontSize defaultFontDpi := by
      intro h
      rw [← h] at hdef
      rw [hvac] at hdef
      exact Option.noConfusion hdef
    refine ⟨⟨inst0.font_id, fid.size, fid.dpi, inst0.external_key,
        kc.api.nextFontInstanceKey⟩,
      ⟨⟨kc.api.up ++ [Update.addFontInstance inst0.external_key
          kc.api.nextFontInstanceKey fid.size],
        kc.api.nextFontKey, kc.api.nextFontInstanceKey + 1⟩, kc.context,
        insertM kc.instances fid ⟨inst0.font_id, fid.size, fid.dpi,
          inst0.external_key, kc.api.nextFontInstanceKey⟩, kc.default_font⟩,
      ?_, rfl, rfl, ?_, ?_, ?_⟩
    · simp only [FontCache.get_or_insert_font, hdef, hvac,
        DefaultFontKeysAPI.add_font_instance]
    · simp only [DefaultFontKeysAPI.add_font_instance]
    · simp only [DefaultFontKeysAPI.add_font_instance]
    · simp only [FontCache.get_or_insert_font, DefaultFontKeysAPI.add_font_instance,
        lookupM_insert_ne _ _ hne, hdef, lookupM_insert_self]
  · intro inst0 inst hdef hocc
    simp only [FontCache.get_or_insert_font, hdef, hocc]
  · intro eng font_id enc face_index face fam hkl hnf hfam hki
    simp only [FontCache.add_font, FontContext.add_face, DecodedFont.from_encoded_font,
      hkl, hnf, FontContext.get_family_name, lookupM_insert_self, hfam, hki,
      DefaultFontKeysAPI.add_font, DefaultFontKeysAPI.add_font_instance]

/-- Concrete font cache used by the C3 witness: one registered instance
of family hash 77 at the default size/DPI with font key 4 and instance
key 5. -/
def wKC : FontCache :=
  ⟨⟨[], 0, 3⟩, ⟨[]⟩,
    [(⟨77, defaultFontSize, defaultFontDpi⟩, ⟨9, defaultFontSize, defaultFontDpi, 4, 5⟩)],
    none⟩

/-- Witness for C3 at concrete inputs: a never-added family yields
nothing; a fresh size variant reuses font key 4 and allocates only an
instance key, idempotently; the cached default variant is returned
unchanged; a successful `add_font` allocates exactly one font key. -/
theorem C3_font_key_reuse_witness :
    FontCache.get_or_insert_font wKC ⟨88, 20, 72⟩ = (none, wKC) ∧
    (∃ inst kc1, FontCache.get_or_insert_font wKC ⟨77, 20, 72⟩ = (some inst, kc1) ∧
      inst.font_id = 9 ∧
      inst.external_key = 4 ∧
      kc1.api.nextFontKey = wKC.api.nextFontKey ∧
      kc1.api.nextFontInstanceKey = wKC.api.nextFontInstanceKey + 1 ∧
      FontCache.get_or_insert_font kc1 ⟨77, 20, 72⟩ = (some inst, kc1)) ∧
    FontCache.get_or_insert_font wKC ⟨77, defaultFontSize, defaultFontDpi⟩
      = (some ⟨9, defaultFontSize, defaultFontDpi, 4, 5⟩, wKC) ∧
    (FontCache.add_font wEngine wKC 9 (EncodedFont.bytes [3]) 0).2.api.nextFontKey
      = wKC.api.nextFontKey + 1 :=
  ⟨(C3_font_key_reuse wKC ⟨88, 20, 72⟩).1 (by decide),
   (C3_font_key_reuse wKC ⟨77, 20, 72⟩).2.1 ⟨9, defaultFontSize, defaultFontDpi, 4, 5⟩
     (by decide) (by decide),
   (C3_font_key_reuse wKC ⟨77, defaultFontSize, defaultFontDpi⟩).2.2.1
     ⟨9, defaultFontSize, defaultFontDpi, 4, 5⟩ ⟨9, defaultFontSize, defaultFontDpi, 4, 5⟩
     (by decide) (by decide),
   (C3_font_key_reuse wKC ⟨77, 20, 72⟩).2.2.2 wEngine 9 (EncodedFont.bytes [3]) 0
     wFace [70, 83] rfl rfl rfl (by decide)⟩

/-- C10: `add_font` duplicate detection is not atomic. With a fresh font
identity whose face loads and reports a family whose default-size
instance identity is already registered, and no default font set, the
call returns `FontInstanceAlreadyAdded` — yet the newly loaded face
stays registered in the context (so `get_family_name_for_id` succeeds
for the new id afterwards), and the default-font identity has been set
as a side effect of the failed call; the instance dictionary and the
keys API are unchanged. -/
theorem C10_add_font_not_atomic
    (eng : FontEngine) (kc : FontCache) (font_id : Nat) (enc : EncodedFont)
    (face_index : Nat) (face : FontFace) (fam : List Nat) (inst0 : FontInstance)
    (hkl : lookupM kc.context.faces font_id = none)
    (hnf : eng.newFace enc.rawBytes face_index = .ok face)
    (hfam : face.family = .ok fam)
    (hdup : lookupM kc.instances
      (FontInstanceId.from_family_str fam defaultFontSize defaultFontDpi) = some inst0)
    (hdefault : kc.default_font = none) :
    FontCache.add_font eng kc font_id enc face_index
      = (.error .fontInstanceAlreadyAdded,
        ⟨kc.api, ⟨insertM kc.context.faces font_id face⟩, kc.instances,
          some (FontInstanceId.from_family_str fam defaultFontSize defaultFontDpi)⟩) ∧
    FontCache.get_family_name_for_id
      ⟨kc.api, ⟨insertM kc.context.faces font_id face⟩, kc.instances,
        some (FontInstanceId.from_family_str fam defaultFontSize defaultFontDpi)⟩ font_id
      = .ok fam := by
  constructor
  · simp only [FontCache.add_font, FontContext.add_face, DecodedFont.from_encoded_font,
      hkl, hnf, FontContext.get_family_name, lookupM_insert_self, hfam, hdup, hdefault,
      Option.getD_none]
  · simp only [FontCache.get_family_name_for_id, FontContext.get_family_name,
      lookupM_insert_self, hfam]

/-- Concrete font cache used by the C10 witness: the default-size
instance identity of family `FS` is already registered (under another
font id 3), and no default font is set. -/
def wKC10 : FontCache :=
  ⟨⟨[], 2, 7⟩, ⟨[]⟩,
    [(FontInstanceId.from_family_str [70, 83] defaultFontSize defaultFontDpi,
      ⟨3, defaultFontSize, defaultFontDpi, 1, 2⟩)],
    none⟩

/-- Witness for C10 at concrete inputs. -/
theorem C10_add_font_not_atomic_witness :
    FontCache.add_font wEngine wKC10 9 (EncodedFont.bytes [3]) 0
      = (.error .fontInstanceAlreadyAdded,
        ⟨wKC10.api, ⟨insertM wKC10.context.faces 9 wFace⟩, wKC10.instances,
          some (FontInstanceId.from_family_str [70, 83] defaultFontSize defaultFontDpi)⟩) ∧
    FontCache.get_family_name_for_id
      ⟨wKC10.api, ⟨insertM wKC10.context.faces 9 wFace⟩, wKC10.instances,
        some (FontInstanceId.from_family_str [70, 83] defaultFontSize defaultFontDpi)⟩ 9
      = .ok [70, 83] :=
  C10_add_font_not_atomic wEngine wKC10 9 (EncodedFont.bytes [3]) 0 wFace [70, 83]
    ⟨3, defaultFontSize, defaultFontDpi, 1, 2⟩ rfl rfl rfl (by decide) rfl

/-! ## Shaping theorems -/

/-- Sum of the horizontal advances of a text under a glyph-dimension
assignment. -/
def advSumH (gd : Nat → GlyphDimensions) (text : List Nat) : Int :=
  (text.map (fun c => (gd c).hori_advance_64)).sum

theorem shapeLoopH_spec (eng : FontEngine) (ctx : FontContext) (inst : FontInstance)
    (asc : Int) (gd : Nat → GlyphDimensions) :
    ∀ (text : List Nat) (pen : Int),
      (∀ c ∈ text, FontContext.get_glyph_dimensions eng ctx inst c = .ok (gd c)) →
      ∃ gl, shapeLoopH eng ctx inst asc text pen = .ok (gl, pen + advSumH gd text) ∧
        gl.length = text.length ∧
        ∀ i c, text[i]? = some c →
          gl[i]? = some (GlyphInstance.mk (gd c).glyph_index
            (pen + advSumH gd (text.take i)) asc)
  | [], pen, _ =>
    ⟨[], by simp [shapeLoopH, advSumH], rfl, by intro i c hic; simp at hic⟩
  | c :: rest, pen, h => by
    have hc := h c (by simp)
    obtain ⟨gl, hloop, hlen, hidx⟩ :=
      shapeLoopH_spec eng ctx inst asc gd rest (pen + (gd c).hori_advance_64)
        (fun a ha => h a (by simp [ha]))
    refine ⟨⟨(gd c).glyph_index, pen, asc⟩ :: gl, ?_, by simp [hlen], ?_⟩
    · simp only [shapeLoopH, hc, hloop]
      have harith : pen + (gd c).hori_advance_64 + advSumH gd rest
          = pen + advSumH gd (c :: rest) := by
        simp [advSumH]
        ring
      rw [harith]
    · intro i c' hi
      match i with
      | 0 =>
        simp only [List.getElem?_cons_zero, Option.some.injEq] at hi
        subst hi
        simp [advSumH]
      | Nat.succ j =>
        simp only [List.getElem?_cons_succ] at hi
        have hj := hidx j c' hi
        have harith2 : pen + (gd c).hori_advance_64 + advSumH gd (rest.take j)
            = pen + advSumH gd (c :: rest.take j) := by
          simp [advSumH]
          ring
        simp only [List.getElem?_cons_succ, List.take_succ_cons, hj, harith2]

/-- C2: horizontal shaping of a text not yet in the instance's shaping
cache produces a glyph store with one glyph per character; the glyph for
character `i` sits at x equal to the sum of the horizontal advances of
the preceding characters and at y equal to the face ascender; the total
`width_64` is the sum of all horizontal advances and `height_64` is the
face line height. -/
theorem C2_shape_text_h (eng : FontEngine) (ctx : FontContext) (inst : FontInstance)
    (cache : List (Nat × GlyphStore)) (text : List Nat) (fsm : FontSizeMetrics)
    (gd : Nat → GlyphDimensions)
    (hmiss : lookupM cache (textHash text) = none)
    (hfsm : FontContext.get_global_size_metrics eng ctx inst = .ok fsm)
    (hgd : ∀ c ∈ text, FontContext.get_glyph_dimensions eng ctx inst c = .ok (gd c)) :
    ∃ store cache1 q,
      FontContext.shape_text_h eng ctx inst cache text = .ok (store, cache1, q) ∧
      store.glyphs.length = text.length ∧
      (∀ i c, text[i]? = some c →
        store.glyphs[i]? = some (GlyphInstance.mk (gd c).glyph_index
          (advSumH gd (text.take i)) fsm.ascender_64)) ∧
      store.width_64 = advSumH gd text ∧
      store.height_64 = fsm.height_64 := by
  obtain ⟨gl, hloop, hlen, hidx⟩ := shapeLoopH_spec eng ctx inst fsm.ascender_64 gd text 0 hgd
  refine ⟨⟨inst.external_key, inst.external_instance_key, 0 + advSumH gd text,
    fsm.height_64, gl, textHash text⟩,
    insertM cache (textHash text)
      ⟨inst.external_key, inst.external_instance_key, 0 + advSumH gd text,
        fsm.height_64, gl, textHash text⟩,
    text.length + 1, ?_, hlen, ?_, by simp, rfl⟩
  · simp only [FontContext.shape_text_h, hmiss, hfsm, hloop]
  · intro i c hi
    have := hidx i c hi
    simpa using this

/-- Glyph dimensions reported by `wEngine` for a size-1 instance. -/
def wGd : Nat → GlyphDimensions := fun c => ⟨c + 1, 1, 2, 16, 32⟩

/-- Face metrics reported by `wEngine` for a size-1 instance. -/
def wFsm : FontSizeMetrics := ⟨1, 1, 64, -16, 128, 192⟩

/-- Witness for C2 at a concrete engine, instance and two-character
text. -/
theorem C2_shape_text_h_witness :
    ∃ store cache1 q,
      FontContext.shape_text_h wEngine wCtx wInst1 [] [97, 98] = .ok (store, cache1, q) ∧
      store.glyphs.length = ([97, 98] : List Nat).length ∧
      (∀ i c, ([97, 98] : List Nat)[i]? = some c →
        store.glyphs[i]? = some (GlyphInstance.mk (wGd c).glyph_index
          (advSumH wGd (([97, 98] : List Nat).take i)) wFsm.ascender_64)) ∧
      store.width_64 = advSumH wGd [97, 98] ∧
      store.height_64 = wFsm.height_64 :=
  C2_shape_text_h wEngine wCtx wInst1 [] [97, 98] wFsm wGd rfl (by decide) (by decide)

theorem shape_h_hit (eng : FontEngine) (ctx : FontContext) (inst : FontInstance)
    (cache : List (Nat × GlyphStore)) (text : List Nat) (store : GlyphStore)
    (h : lookupM cache (textHash text) = some store) :
    FontContext.shape_text_h eng ctx inst cache text = .ok (store, cache, 0) := by
  simp only [FontContext.shape_text_h, h]

theorem shape_v_hit (eng : FontEngine) (ctx : FontContext) (inst : FontInstance)
    (cache : List (Nat × GlyphStore)) (text : List Nat) (store : GlyphStore)
    (h : lookupM cache (textHash text) = some store) :
    FontContext.shape_text_v eng ctx inst cache text = .ok (store, cache, 0) := by
  simp only [FontContext.shape_text_v, h]

theorem shape_h_cached {eng : FontEngine} {ctx : FontContext} {inst : FontInstance}
    {cache : List (Nat × GlyphStore)} {text : List Nat} {store : GlyphStore}
    {cache1 : List (Nat × GlyphStore)} {q : Nat}
    (h : FontContext.shape_text_h eng ctx inst cache text = .ok (store, cache1, q)) :
    lookupM cache1 (textHash text) = some store := by
  simp only [FontContext.shape_text_h] at h
  split at h
  · rename_i s hs
    simp only [Except.ok.injEq, Prod.mk.injEq] at h
    obtain ⟨h1, h2, _⟩ := h
    rw [← h2, hs, h1]
  · rename_i hs
    split at h
    · simp at h
    · rename_i fsm hfsm
      split at h
      · simp at h
      · rename_i glyphs pen hloop
        simp only [Except.ok.injEq, Prod.mk.injEq] at h
        obtain ⟨h1, h2, _⟩ := h
        rw [← h2, ← h1]
        exact lookupM_insert_self _ _ _

theorem shape_v_cached {eng : FontEngine} {ctx : FontContext} {inst : FontInstance}
    {cache : List (Nat × GlyphStore)} {text : List Nat} {store : GlyphStore}
    {cache1 : List (Nat × GlyphStore)} {q : Nat}
    (h : FontContext.shape_text_v eng ctx inst cache text = .ok (store, cache1, q)) :
    lookupM cache1 (textHash text) = some store := by
  simp only [FontContext.shape_text_v] at h
  split at h
  · rename_i s hs
    simp only [Except.ok.injEq, Prod.mk.injEq] at h
    obtain ⟨h1, h2, _⟩ := h
    rw [← h2, hs, h1]
  · rename_i hs
    split at h
    · simp at h
    · rename_i fsm hfsm
      split at h
      · simp at h
      · rename_i glyphs pen hloop
        simp only [Except.ok.injEq, Prod.mk.injEq] at h
        obtain ⟨h1, h2, _⟩ := h
        rw [← h2, ← h1]
        exact lookupM_insert_self _ _ _

/-- C7: shaping the same text a second time on the same instance and
direction (horizontal or vertical) returns exactly the store of the
first call — same generation id, glyphs, width and height — from the
same unchanged cache, and performs zero engine glyph-metric queries
(the query count of a cache hit is 0). -/
theorem C7_shape_cache_hit (eng : FontEngine) (ctx : FontContext) (inst : FontInstance)
    (cacheH cacheV : List (Nat × GlyphStore)) (text : List Nat)
    (s1 : GlyphStore) (c1 : List (Nat × GlyphStore)) (q1 : Nat)
    (s2 : GlyphStore) (c2 : List (Nat × GlyphStore)) (q2 : Nat)
    (h1 : FontContext.shape_text_h eng ctx inst cacheH text = .ok (s1, c1, q1))
    (h2 : FontContext.shape_text_v eng ctx inst cacheV text = .ok (s2, c2, q2)) :
    FontContext.shape_text_h eng ctx inst c1 text = .ok (s1, c1, 0) ∧
    FontContext.shape_text_v eng ctx inst c2 text = .ok (s2, c2, 0) :=
  ⟨shape_h_hit eng ctx inst c1 text s1 (shape_h_cached h1),
   shape_v_hit eng ctx inst c2 text s2 (shape_v_cached h2)⟩

/-- Witness for C7 at a concrete engine, instance and text. -/
theorem C7_shape_cache_hit_witness :
    ∃ s1 c1 q1 s2 c2 q2,
      FontContext.shape_text_h wEngine wCtx wInst1 [] [97, 98] = .ok (s1, c1, q1) ∧
      FontContext.shape_text_v wEngine wCtx wInst1 [] [97, 98] = .ok (s2, c2, q2) ∧
      FontContext.shape_text_h wEngine wCtx wInst1 c1 [97, 98] = .ok (s1, c1, 0) ∧
      FontContext.shape_text_v wEngine wCtx wInst1 c2 [97, 98] = .ok (s2, c2, 0) := by
  refine ⟨_, _, _, _, _, _, rfl, rfl, ?_, ?_⟩
  · exact (C7_shape_cache_hit wEngine wCtx wInst1 [] [] [97, 98] _ _ _ _ _ _ rfl rfl).1
  · exact (C7_shape_cache_hit wEngine wCtx wInst1 [] [] [97, 98] _ _ _ _ _ _ rfl rfl).2

/-- C8, as stated by the spec, is false: the generation id hashes only
the text (the instance-key hashing is commented out in the source), so
shaping the same text on two instances of the same face at sizes 1 and
2 yields stores with EQUAL generation ids (hence equal under the
`PartialEq` shortcut) but DIFFERENT glyph sequences. -/
theorem C8_counterexample :
    ((FontContext.shape_text_h wEngine wCtx wInst1 [] [97, 97]).toOption.map
        (fun r => r.1.generation_id)
      = (FontContext.shape_text_h wEngine wCtx wInst2 [] [97, 97]).toOption.map
        (fun r => r.1.generation_id)) ∧
    ((FontContext.shape_text_h wEngine wCtx wInst1 [] [97, 97]).toOption.map
        (fun r => r.1.glyphs)
      ≠ (FontContext.shape_text_h wEngine wCtx wInst2 [] [97, 97]).toOption.map
        (fun r => r.1.glyphs)) := by
  decide

theorem lookupM_insert_cases {K V : Type} [DecidableEq K] {m : List (K × V)} {k g : K}
    {v w : V} (h : lookupM (insertM m k v) g = some w) :
    (k = g ∧ w = v) ∨ (k ≠ g ∧ lookupM m g = some w) := by
  by_cases hk : k = g
  · subst hk
    rw [lookupM_insert_self] at h
    exact Or.inl ⟨rfl, (Option.some.inj h).symm⟩
  · rw [lookupM_insert_ne _ _ hk] at h
    exact Or.inr ⟨hk, h⟩

theorem shape_h_generation {eng : FontEngine} {ctx : FontContext} {inst : FontInstance}
    {cache : List (Nat × GlyphStore)} {text : List Nat} {store : GlyphStore}
    {cache1 : List (Nat × GlyphStore)} {q : Nat}
    (hwf : ∀ g v, lookupM cache g = some v → v.generation_id = g)
    (h : FontContext.shape_text_h eng ctx inst cache text = .ok (store, cache1, q)) :
    store.generation_id = textHash text ∧
    ∀ g v, lookupM cache1 g = some v → v.generation_id = g := by
  simp only [FontContext.shape_text_h] at h
  split at h
  · rename_i s hs
    simp only [Except.ok.injEq, Prod.mk.injEq] at h
    obtain ⟨h1, h2, _⟩ := h
    constructor
    · rw [← h1]
      exact hwf _ _ hs
    · rw [← h2]
      exact hwf
  · rename_i hs
    split at h
    · simp at h
    · rename_i fsm hfsm
      split at h
      · simp at h
      · rename_i glyphs pen hloop
        simp only [Except.ok.injEq, Prod.mk.injEq] at h
        obtain ⟨h1, h2, _⟩ := h
        constructor
        · rw [← h1]
        · rw [← h2]
          intro g v hv
          rcases lookupM_insert_cases hv with ⟨rfl, rfl⟩ | ⟨_, hold⟩
          · rfl
          · exact hwf _ _ hold

/-- C8 (amended): within a single font instance and direction, the
generation id IS a sound equality proxy: two stores returned by
successive horizontal shaping calls on the same instance cache whose
generation ids are equal are the same store, with the same glyphs,
width and height — because both are the one cache entry under that id.
Across instances the id hashes only the text (see the counterexample),
so the shortcut is not sound globally. -/
theorem C8_generation_id_per_instance (eng : FontEngine) (ctx : FontContext)
    (inst : FontInstance) (c0 : List (Nat × GlyphStore)) (t1 t2 : List Nat)
    (s1 : GlyphStore) (c1 : List (Nat × GlyphStore)) (q1 : Nat)
    (s2 : GlyphStore) (c2 : List (Nat × GlyphStore)) (q2 : Nat)
    (hwf : ∀ g v, lookupM c0 g = some v → v.generation_id = g)
    (h1 : FontContext.shape_text_h eng ctx inst c0 t1 = .ok (s1, c1, q1))
    (h2 : FontContext.shape_text_h eng ctx inst c1 t2 = .ok (s2, c2, q2))
    (heq : s1.generation_id = s2.generation_id) :
    s1 = s2 ∧ s1.glyphs = s2.glyphs ∧ s1.width_64 = s2.width_64 ∧
      s1.height_64 = s2.height_64 := by
  have hc1 := shape_h_cached h1
  obtain ⟨hg1, hwf1⟩ := shape_h_generation hwf h1
  obtain ⟨hg2, _⟩ := shape_h_generation hwf1 h2
  have ht : textHash t2 = textHash t1 := by rw [← hg1, ← hg2, heq]
  have hhit : FontContext.shape_text_h eng ctx inst c1 t2 = .ok (s1, c1, 0) :=
    shape_h_hit _ _ _ _ _ _ (by rw [ht]; exact hc1)
  have hcomb := hhit.symm.trans h2
  simp only [Except.ok.injEq, Prod.mk.injEq] at hcomb
  obtain ⟨hs, _⟩ := hcomb
  subst hs
  exact ⟨rfl, rfl, rfl, rfl⟩

/-- Witness for the amended C8: two successive shapes of the same text
on the same instance have equal generation ids and are the same store. -/
theorem C8_generation_id_per_instance_witness :
    ∃ s1 c1 q1 s2 c2 q2,
      FontContext.shape_text_h wEngine wCtx wInst1 [] [97] = .ok (s1, c1, q1) ∧
      FontContext.shape_text_h wEngine wCtx wInst1 c1 [97] = .ok (s2, c2, q2) ∧
      s1 = s2 := by
  refine ⟨_, _, _, _, _, _, rfl, rfl, ?_⟩
  exact (C8_generation_id_per_instance wEngine wCtx wInst1 [] [97] [97] _ _ _ _ _ _
    (by intro g v hv; simp [lookupM] at hv) rfl rfl rfl).1
